import Mathlib

/-
Verification of the two reporting scripts of the DashboardGC repository:
  src/scripts/analyze-csv.py         (table entry point)
  src/scripts/generate-csv-stats.py  (JSON entry point)
Python strings are embedded as lists of characters, CSV rows as field
mappings with optional values, and dates through a model of the two
strptime formats the scripts use.
-/

set_option maxRecDepth 8000

namespace DashGC

/-- Python strings are modelled as lists of characters. -/
abbrev Str := List Char

/-- Coerce a Lean string literal into the embedding string type. -/
def lit (s : String) : Str := s.data

/-- Python whitespace characters, as recognised by str.strip and str.split. -/
def pyIsSpace (c : Char) : Bool :=
  c = ' ' || c = '\t' || c = '\n' || c = '\r' || c = '\x0b' || c = '\x0c'

/-- Python truthiness of a string: nonempty. -/
def pyBool (s : Str) : Bool := !s.isEmpty

/-- Python str.split on a comma, keeping empty fragments. -/
def splitComma : Str → List Str
  | [] => [[]]
  | c :: rest =>
    if c = ',' then [] :: splitComma rest
    else
      match splitComma rest with
      | t :: ts => (c :: t) :: ts
      | [] => [[c]]

/-- Python str.strip: remove leading and trailing whitespace. -/
def pyStrip (s : Str) : Str :=
  ((s.dropWhile pyIsSpace).reverse.dropWhile pyIsSpace).reverse

/-- Boolean test that the second list starts the first. -/
def startsWith : Str → Str → Bool
  | _, [] => true
  | [], _ :: _ => false
  | c :: s, p :: ps => c = p && startsWith s ps

/-- Boolean test that the second list ends the first. -/
def endsWith (s p : Str) : Bool := startsWith s.reverse p.reverse

/-- Worker for removeAll; the fuel only bounds recursion depth and is
never exhausted when it starts at the length of the string. -/
def removeAllF (pat : Str) : Nat → Str → Str
  | 0, s => s
  | _ + 1, [] => []
  | fuel + 1, c :: rest =>
    if pat ≠ [] ∧ startsWith (c :: rest) pat then
      removeAllF pat fuel (List.drop (pat.length - 1) rest)
    else c :: removeAllF pat fuel rest

/-- Python str.replace(pat, "") for a nonempty pattern: remove every
occurrence of pat anywhere in the string, scanning left to right. -/
def removeAll (pat s : Str) : Str := removeAllF pat s.length s

/-- A parsed Python datetime value; date-only values carry zero time fields. -/
structure DateTime where
  year : Nat
  month : Nat
  day : Nat
  hour : Nat
  minute : Nat
  second : Nat
deriving DecidableEq, Repr

/-- Decimal digit test on the character code, as the strptime regex. -/
def isDig (c : Char) : Bool := 48 ≤ c.toNat && c.toNat ≤ 57

/-- Numeric value of a digit character. -/
def dval (c : Char) : Nat := c.toNat - 48

/-- Exactly four digits, as matched by the strptime %Y field. -/
def parse4 : Str → Option (Nat × Str)
  | a :: b :: c :: d :: rest =>
    if isDig a && isDig b && isDig c && isDig d then
      some ((((dval a) * 10 + dval b) * 10 + dval c) * 10 + dval d, rest)
    else none
  | _ => none

/-- One or two digits with the value constraints of the strptime field
patterns for %m, %d, %H, %M and %S: a two-digit match must lie between
minv and maxv, a lone digit must be at least minv. -/
def parse12 (minv maxv : Nat) : Str → Option (Nat × Str)
  | c1 :: c2 :: rest =>
    if isDig c1 then
      if isDig c2 then
        if minv ≤ dval c1 * 10 + dval c2 ∧ dval c1 * 10 + dval c2 ≤ maxv then
          some (dval c1 * 10 + dval c2, rest)
        else none
      else if minv ≤ dval c1 then some (dval c1, c2 :: rest) else none
    else none
  | [c1] =>
    if isDig c1 ∧ minv ≤ dval c1 then some (dval c1, []) else none
  | [] => none

/-- A literal character of the format. -/
def parseCh (ch : Char) : Str → Option Str
  | c :: rest => if c = ch then some rest else none
  | [] => none

/-- A literal space in a strptime format matches one or more whitespace
characters. -/
def parseWs : Str → Option Str
  | c :: rest => if pyIsSpace c then some (List.dropWhile pyIsSpace rest) else none
  | [] => none

/-- Gregorian leap year test. -/
def isLeap (y : Nat) : Bool := y % 4 == 0 && (y % 100 != 0 || y % 400 == 0)

/-- Length of a month, as the datetime constructor validates it. -/
def daysInMonth (y m : Nat) : Nat :=
  if m = 2 then (if isLeap y then 29 else 28)
  else if m = 4 ∨ m = 6 ∨ m = 9 ∨ m = 11 then 30
  else 31

/-- strptime with format "%Y-%m-%d": the whole string must match and the
datetime constructor checks the calendar bounds. -/
def strptimeDate (s : Str) : Option DateTime :=
  match parse4 s with
  | none => none
  | some (y, s1) =>
    match parseCh '-' s1 with
    | none => none
    | some s2 =>
      match parse12 1 12 s2 with
      | none => none
      | some (mo, s3) =>
        match parseCh '-' s3 with
        | none => none
        | some s4 =>
          match parse12 1 31 s4 with
          | none => none
          | some (da, s5) =>
            if s5 = [] ∧ 1 ≤ y ∧ da ≤ daysInMonth y mo then
              some ⟨y, mo, da, 0, 0, 0⟩
            else none

/-- strptime with format "%Y-%m-%d %H:%M:%S". -/
def strptimeFull (s : Str) : Option DateTime :=
  match parse4 s with
  | none => none
  | some (y, s1) =>
    match parseCh '-' s1 with
    | none => none
    | some s2 =>
      match parse12 1 12 s2 with
      | none => none
      | some (mo, s3) =>
        match parseCh '-' s3 with
        | none => none
        | some s4 =>
          match parse12 1 31 s4 with
          | none => none
          | some (da, s5) =>
            match parseWs s5 with
            | none => none
            | some s6 =>
              match parse12 0 23 s6 with
              | none => none
              | some (h, s7) =>
                match parseCh ':' s7 with
                | none => none
                | some s8 =>
                  match parse12 0 59 s8 with
                  | none => none
                  | some (mi, s9) =>
                    match parseCh ':' s9 with
                    | none => none
                    | some s10 =>
                      match parse12 0 59 s10 with
                      | none => none
                      | some (sec, s11) =>
                        if s11 = [] ∧ 1 ≤ y ∧ da ≤ daysInMonth y mo then
                          some ⟨y, mo, da, h, mi, sec⟩
                        else none

/-- Days contributed by all years before y. -/
def daysBeforeYear (y : Nat) : Nat :=
  365 * (y - 1) + (y - 1) / 4 + (y - 1) / 400 - (y - 1) / 100

/-- Days contributed by the months before m in year y. -/
def daysBeforeMonth (y m : Nat) : Nat :=
  (List.range (m - 1)).foldl (fun a i => a + daysInMonth y (i + 1)) 0

/-- Proleptic Gregorian ordinal of the date part, as datetime.toordinal. -/
def toOrdinal (d : DateTime) : Nat :=
  daysBeforeYear d.year + daysBeforeMonth d.year d.month + d.day

/-- Seconds since the epoch of the ordinal count, for comparing datetimes. -/
def toSeconds (d : DateTime) : Nat :=
  toOrdinal d * 86400 + d.hour * 3600 + d.minute * 60 + d.second

/-- The days field of the timedelta a minus b: floor of the difference. -/
def tdDays (a b : DateTime) : Int :=
  ((toSeconds a : Int) - (toSeconds b : Int)).fdiv 86400

/-- The maximal element of a nonempty date list, keeping the earlier one on
ties, as Python max and as the last element of a stable ascending sort
(equal keys are equal datetime values). -/
def maxBySec (d : DateTime) : List DateTime → DateTime
  | [] => d
  | x :: xs => maxBySec (if toSeconds d < toSeconds x then x else d) xs

/-- The minimal element of a nonempty date list, keeping the earlier one on
ties, as the first element of a stable ascending sort. -/
def minBySec (d : DateTime) : List DateTime → DateTime
  | [] => d
  | x :: xs => minBySec (if toSeconds x < toSeconds d then x else d) xs

/-- Decimal digits of a natural number. -/
def natStr (n : Nat) : Str := Nat.toDigits 10 n

/-- Zero padding to a fixed width. -/
def pad0 (w : Nat) (s : Str) : Str := List.replicate (w - s.length) '0' ++ s

/-- strftime "%Y-%m-%d". -/
def fmtDate (d : DateTime) : Str :=
  pad0 4 (natStr d.year) ++ '-' :: (pad0 2 (natStr d.month) ++ '-' :: pad0 2 (natStr d.day))

/-- Round a / b for positive b to the nearest integer, ties to even; both
the IEEE division and the fixed-precision decimal conversion round the
exact quotient this way. -/
def rdivN (a b : Nat) : Nat :=
  if 2 * (a % b) < b then a / b
  else if b < 2 * (a % b) then a / b + 1
  else if (a / b) % 2 = 0 then a / b else a / b + 1

/-- Floor of the base-two logarithm, by fuelled halving; the fuel is taken
at least as large as the argument. -/
def ilog2 : Nat → Nat → Nat
  | 0, _ => 0
  | fuel + 1, n => if n ≤ 1 then 0 else ilog2 fuel (n / 2) + 1

/-- Smallest number of doublings of n needed to reach d, by fuelled
doubling; the fuel is taken at least as large as d. -/
def scaleUp : Nat → Nat → Nat → Nat
  | 0, _, _ => 0
  | fuel + 1, n, d => if d ≤ n then 0 else scaleUp fuel (2 * n) d + 1

/-- Digits of a value already scaled by ten: an integer part, a dot, and
one decimal digit. -/
def oneDec (n10 : Nat) : Str := natStr (n10 / 10) ++ '.' :: natStr (n10 % 10)

/-- Python float division n / d followed by formatting with "%.1f", for
positive operands: the quotient is first rounded to the nearest IEEE
binary64 value (53-bit significand, ties to even; calendar spans and
counts stay far inside the normal exponent range), and that double is then
converted to one decimal digit, again rounding the exact value to nearest
with ties to even, as the CPython fixed-precision conversion does. -/
def fmtAvgPos (n d : Nat) : Str :=
  if n = 0 then lit "0.0"
  else if d ≤ n then
    let k := ilog2 n (n / d)
    if k ≤ 52 then
      let m := rdivN (n * 2 ^ (52 - k)) d
      oneDec (rdivN (10 * m) (2 ^ (52 - k)))
    else
      oneDec (10 * rdivN n (d * 2 ^ (k - 52)) * 2 ^ (k - 52))
  else
    let k := scaleUp d n d
    let m := rdivN (n * 2 ^ (52 + k)) d
    oneDec (rdivN (10 * m) (2 ^ (52 + k)))

/-- The frequency string body f"{avg:.1f}" where avg = total / den in
Python float arithmetic; the guarded branches of both scripts only reach
this with a positive span and a positive denominator. -/
def fmtAvg (total den : ℤ) : Str :=
  if den = 0 then lit "0.0"
  else if total * den < 0 then '-' :: fmtAvgPos total.natAbs den.natAbs
  else fmtAvgPos total.natAbs den.natAbs

/-- One CSV record as a field mapping. Value none models a key absent from
the row dictionary, for example a column missing from the header; a present
key carries its string value. -/
structure Row where
  data_pubblicazione : Option Str
  category : Option Str
  geo : Option Str
  template_articolo : Option Str

/-- A bucket of generate-csv-stats.py: a count plus the raw date strings. -/
structure GBucket where
  count : Nat
  dates : List Str
deriving DecidableEq, Repr

abbrev GStats := List (Str × GBucket)

/-- First value bound to a key in an association list. -/
def alookup {β : Type} (m : List (Str × β)) (k : Str) : Option β :=
  match m with
  | [] => none
  | (q, b) :: rest => if q = k then some b else alookup rest k

/-- The defaultdict update of generate-csv-stats.py: increment the count of
the bucket and append the raw date string when it is nonempty. -/
def updG (m : GStats) (k : Str) (ds : Str) : GStats :=
  match m with
  | [] => [(k, ⟨1, if ds = [] then [] else [ds]⟩)]
  | (q, b) :: rest =>
    if q = k then
      (q, ⟨b.count + 1, if ds = [] then b.dates else b.dates ++ [ds]⟩) :: rest
    else (q, b) :: updG rest k ds

/-- Count held for a key, zero when the bucket does not exist. -/
def countG (m : GStats) (k : Str) : Nat := ((alookup m k).map GBucket.count).getD 0

/-- Date strings held for a key. -/
def datesG (m : GStats) (k : Str) : List Str := ((alookup m k).map GBucket.dates).getD []

/-- The three aggregation maps of generate-csv-stats.py. -/
structure GState where
  cat : GStats
  geo : GStats
  temp : GStats
deriving Repr

/-- Template cleaning in generate-csv-stats.py: strip the fixed leading
"templates/post-" when present, then the trailing ".php" when present. -/
def genCleanTemplate (t : Str) : Str :=
  let t1 := if startsWith t (lit "templates/post-") then List.drop 15 t else t
  if endsWith t1 (lit ".php") then List.take (t1.length - 4) t1 else t1

/-- One iteration of the row loop of generate-csv-stats.py. Fields are read
with row.get and suitable defaults, so no row can fail. -/
def genProcessRow (s : GState) (row : Row) : GState :=
  let date_str := row.data_pubblicazione.getD []
  let category := row.category.getD (lit "NULL")
  let geo := row.geo.getD (lit "NULL")
  let template := row.template_articolo.getD (lit "NULL")
  let catStep := fun (m : GStats) (tok : Str) =>
    let c := pyStrip tok
    if pyBool c then updG m c date_str else m
  let s1 :=
    if pyBool category ∧ category ≠ lit "NULL" then
      { s with cat := (splitComma category).foldl catStep s.cat }
    else s
  let s2 :=
    if pyBool geo ∧ geo ≠ lit "NULL" then { s1 with geo := updG s1.geo geo date_str } else s1
  if pyBool template ∧ template ≠ lit "NULL" then
    { s2 with temp := updG s2.temp (genCleanTemplate template) date_str }
  else s2

/-- The whole aggregation loop of generate-csv-stats.py. -/
def genRun (rows : List Row) : GState := rows.foldl genProcessRow ⟨[], [], []⟩

/-- The token fold the category branch of generate-csv-stats.py performs. -/
def catFold (ds : Str) (m : GStats) (toks : List Str) : GStats :=
  toks.foldl
    (fun m tok =>
      let c := pyStrip tok
      if pyBool c then updG m c ds else m)
    m

/-- Invariant of the JSON aggregation maps: a bucket never holds more date
strings than its count. -/
def InvG (m : GStats) : Prop := ∀ k b, alookup m k = some b → b.dates.length ≤ b.count

/-- One result record of calculate_stats. -/
structure Entry where
  name : Str
  count : Nat
  lastEntry : Str
  frequency : Str
deriving DecidableEq, Repr

/-- First whitespace-separated token of a string, as d.split()[0]; none when
the string is empty or all whitespace, where Python raises IndexError inside
the try block. -/
def firstToken (s : Str) : Option Str :=
  match List.dropWhile pyIsSpace s with
  | [] => none
  | c :: rest => some (List.takeWhile (fun x => !pyIsSpace x) (c :: rest))

/-- Date parsing inside calculate_stats: first token of the stored string,
then strptime "%Y-%m-%d"; any failure is swallowed. -/
def genParseDate (d : Str) : Option DateTime :=
  match firstToken d with
  | none => none
  | some t => strptimeDate t

/-- The per-bucket body of calculate_stats in generate-csv-stats.py. -/
def calcEntry (name : Str) (b : GBucket) : Entry :=
  match b.dates.filterMap genParseDate with
  | [] => ⟨name, b.count, lit "N/A", lit "N/A"⟩
  | p :: ps =>
    let lastD := maxBySec p ps
    let freq :=
      if 1 < (p :: ps).length then
        if 0 < tdDays lastD (minBySec p ps) ∧ 1 < b.count then
          lit "1 every " ++
            fmtAvg (tdDays lastD (minBySec p ps)) ((b.count : ℤ) - 1) ++ lit " days"
        else lit "N/A"
      else lit "N/A"
    ⟨name, b.count, fmtDate lastD, freq⟩

/-- Insert an entry after every entry of at least its count. -/
def insertByCount (e : Entry) : List Entry → List Entry
  | [] => [e]
  | x :: xs => if x.count < e.count then e :: x :: xs else x :: insertByCount e xs

/-- Stable sort by count descending, as list.sort with reverse=True. -/
def sortDesc (l : List Entry) : List Entry := l.foldl (fun acc e => insertByCount e acc) []

/-- calculate_stats of generate-csv-stats.py. -/
def calculate_stats (m : GStats) : List Entry :=
  sortDesc (m.map (fun p => calcEntry p.1 p.2))

/-- Sum of the per-bucket counts of one result list. -/
def sumCounts (l : List Entry) : Nat := (l.map Entry.count).sum

/-- The JSON object built at the bottom of generate-csv-stats.py. -/
structure Output where
  categories : List Entry
  geos : List Entry
  templates : List Entry
  totalArticles : Nat

/-- The whole JSON entry point: aggregate every row, compute the three
result lists, and record the raw row count. -/
def genOutput (rows : List Row) : Output :=
  ⟨calculate_stats (genRun rows).cat, calculate_stats (genRun rows).geo,
   calculate_stats (genRun rows).temp, rows.length⟩

/-- A bucket of analyze-csv.py: a count plus parsed datetimes. -/
structure ABucket where
  count : Nat
  dates : List DateTime
deriving DecidableEq, Repr

abbrev AStats := List (Str × ABucket)

/-- The defaultdict update of analyze-csv.py: increment the count and append
the parsed datetime, always together. -/
def updA (m : AStats) (k : Str) (d : DateTime) : AStats :=
  match m with
  | [] => [(k, ⟨1, [d]⟩)]
  | (q, b) :: rest =>
    if q = k then (q, ⟨b.count + 1, b.dates ++ [d]⟩) :: rest
    else (q, b) :: updA rest k d

/-- Count held for a key, zero when the bucket does not exist. -/
def countA (m : AStats) (k : Str) : Nat := ((alookup m k).map ABucket.count).getD 0

/-- Parsed datetimes held for a key. -/
def datesA (m : AStats) (k : Str) : List DateTime := ((alookup m k).map ABucket.dates).getD []

/-- The three aggregation maps of analyze-csv.py. -/
structure AState where
  cats : AStats
  geos : AStats
  temps : AStats
deriving Repr

/-- Template cleaning in analyze-csv.py: str.replace removes every
occurrence of the two substrings, not only at the ends of the string. -/
def anaCleanTemplate (t : Str) : Str :=
  removeAll (lit ".php") (removeAll (lit "templates/post-") t)

/-- Reading row[k]: a missing key raises KeyError. -/
def getKey (o : Option Str) : Except Str Str :=
  match o with
  | some v => Except.ok v
  | none => Except.error (lit "KeyError")

/-- One iteration of the row loop of analyze-csv.py. The bare except around
strptime turns a parse failure into continue before any other field is
read; the four direct row lookups are outside it and propagate KeyError. -/
def anaProcessRow (s : AState) (row : Row) : Except Str AState :=
  match getKey row.data_pubblicazione with
  | Except.error e => Except.error e
  | Except.ok date_str =>
    match strptimeFull date_str with
    | none => Except.ok s
    | some date =>
      match getKey row.category with
      | Except.error e => Except.error e
      | Except.ok category =>
        let s :=
          if pyBool category ∧ category ≠ lit "NULL" then
            { s with cats := updA s.cats category date }
          else s
        match getKey row.geo with
        | Except.error e => Except.error e
        | Except.ok geo =>
          let s :=
            if pyBool geo ∧ geo ≠ lit "NULL" then
              { s with geos := updA s.geos geo date }
            else s
          match getKey row.template_articolo with
          | Except.error e => Except.error e
          | Except.ok template =>
            Except.ok
              (if pyBool template ∧ template ≠ lit "NULL" then
                { s with temps := updA s.temps (anaCleanTemplate template) date }
              else s)

/-- The whole aggregation loop of analyze-csv.py. -/
def anaRun (rows : List Row) : Except Str AState :=
  rows.foldlM anaProcessRow ⟨[], [], []⟩

/-- A datetime value in the range the full strptime format can produce. -/
def TimeOk (x : DateTime) : Prop := x.hour ≤ 23 ∧ x.minute ≤ 59 ∧ x.second ≤ 59

/-- Invariant of the table aggregation maps: every bucket was created by at
least one increment, each increment appended exactly one date, and every
stored date came out of the strptime call. -/
def InvA (m : AStats) : Prop :=
  ∀ k b, alookup m k = some b →
    b.count = b.dates.length ∧ 1 ≤ b.count ∧ ∀ x ∈ b.dates, TimeOk x

/-- calculate_frequency of analyze-csv.py. -/
def calculate_frequency (dates : List DateTime) : Str :=
  match dates with
  | [] => lit "N/A"
  | d :: ds =>
    if (d :: ds).length < 2 then lit "N/A"
    else if tdDays (maxBySec d ds) (minBySec d ds) = 0 then lit "< 1 day"
    else
      fmtAvg (tdDays (maxBySec d ds) (minBySec d ds))
        (((d :: ds).length : ℤ) - 1) ++ lit " days"

/-- The last-entry cell of print_table in analyze-csv.py. -/
def lastEntryCell (dates : List DateTime) : Str :=
  match dates with
  | [] => lit "N/A"
  | d :: ds => fmtDate (maxBySec d ds)

/-- The frequency cell of print_table, including its literal lead-in. -/
def frequencyCell (dates : List DateTime) : Str :=
  lit "1 every " ++ calculate_frequency dates

/-! Helper lemmas about the association list updates. -/

theorem countG_updG_self (m : GStats) (k ds : Str) :
    countG (updG m k ds) k = countG m k + 1 := by
  induction m with
  | nil => simp [updG, countG, alookup]
  | cons p rest ih =>
    obtain ⟨q, b⟩ := p
    by_cases h : q = k
    · subst h
      simp [updG, countG, alookup]
    · simpa [updG, countG, alookup, h] using ih

theorem countG_updG_ne (m : GStats) (k ds q : Str) (h : q ≠ k) :
    countG (updG m k ds) q = countG m q := by
  induction m with
  | nil =>
    have hk : ¬ k = q := fun hq => h hq.symm
    simp [updG, countG, alookup, hk]
  | cons p rest ih =>
    obtain ⟨q', b⟩ := p
    by_cases h' : q' = k
    · subst h'
      have hk : ¬ q' = q := fun hq => h hq.symm
      simp [updG, countG, alookup, hk]
    · by_cases hq : q' = q
      · subst hq
        simp [updG, countG, alookup, h']
      · simpa [updG, countG, alookup, h', hq] using ih

theorem datesG_updG_self (m : GStats) (k ds : Str) :
    datesG (updG m k ds) k = datesG m k ++ (if ds = [] then [] else [ds]) := by
  induction m with
  | nil => by_cases h : ds = [] <;> simp [updG, datesG, alookup, h]
  | cons p rest ih =>
    obtain ⟨q, b⟩ := p
    by_cases h : q = k
    · subst h
      by_cases hd : ds = [] <;> simp [updG, datesG, alookup, hd]
    · simpa [updG, datesG, alookup, h] using ih

theorem countA_updA_self (m : AStats) (k : Str) (d : DateTime) :
    countA (updA m k d) k = countA m k + 1 := by
  induction m with
  | nil => simp [updA, countA, alookup]
  | cons p rest ih =>
    obtain ⟨q, b⟩ := p
    by_cases h : q = k
    · subst h
      simp [updA, countA, alookup]
    · simpa [updA, countA, alookup, h] using ih

theorem countA_updA_ne (m : AStats) (k : Str) (d : DateTime) (q : Str) (h : q ≠ k) :
    countA (updA m k d) q = countA m q := by
  induction m with
  | nil =>
    have hk : ¬ k = q := fun hq => h hq.symm
    simp [updA, countA, alookup, hk]
  | cons p rest ih =>
    obtain ⟨q', b⟩ := p
    by_cases h' : q' = k
    · subst h'
      have hk : ¬ q' = q := fun hq => h hq.symm
      simp [updA, countA, alookup, hk]
    · by_cases hq : q' = q
      · subst hq
        simp [updA, countA, alookup, h']
      · simpa [updA, countA, alookup, h', hq] using ih

theorem alookup_updG_self (m : GStats) (k ds : Str) :
    alookup (updG m k ds) k =
      some ⟨countG m k + 1, datesG m k ++ (if ds = [] then [] else [ds])⟩ := by
  induction m with
  | nil => by_cases hd : ds = [] <;> simp [updG, countG, datesG, alookup, hd]
  | cons p rest ih =>
    obtain ⟨q, b⟩ := p
    by_cases h : q = k
    · subst h
      by_cases hd : ds = [] <;> simp [updG, countG, datesG, alookup, hd]
    · simpa [updG, countG, datesG, alookup, h] using ih

theorem alookup_updG_ne (m : GStats) (k ds q : Str) (h : q ≠ k) :
    alookup (updG m k ds) q = alookup m q := by
  induction m with
  | nil =>
    have hk : ¬ k = q := fun hq => h hq.symm
    simp [updG, alookup, hk]
  | cons p rest ih =>
    obtain ⟨q', b⟩ := p
    by_cases h' : q' = k
    · subst h'
      have hk : ¬ q' = q := fun hq => h hq.symm
      simp [updG, alookup, hk]
    · by_cases hq : q' = q
      · subst hq
        simp [updG, alookup, h']
      · simpa [updG, alookup, h', hq] using ih

theorem alookup_updA_self (m : AStats) (k : Str) (d : DateTime) :
    alookup (updA m k d) k = some ⟨countA m k + 1, datesA m k ++ [d]⟩ := by
  induction m with
  | nil => simp [updA, countA, datesA, alookup]
  | cons p rest ih =>
    obtain ⟨q, b⟩ := p
    by_cases h : q = k
    · subst h
      simp [updA, countA, datesA, alookup]
    · simpa [updA, countA, datesA, alookup, h] using ih

theorem alookup_updA_ne (m : AStats) (k : Str) (d : DateTime) (q : Str) (h : q ≠ k) :
    alookup (updA m k d) q = alookup m q := by
  induction m with
  | nil =>
    have hk : ¬ k = q := fun hq => h hq.symm
    simp [updA, alookup, hk]
  | cons p rest ih =>
    obtain ⟨q', b⟩ := p
    by_cases h' : q' = k
    · subst h'
      have hk : ¬ q' = q := fun hq => h hq.symm
      simp [updA, alookup, hk]
    · by_cases hq : q' = q
      · subst hq
        simp [updA, alookup, h']
      · simpa [updA, alookup, h', hq] using ih

/-! Helper lemmas about the extremal dates of a bucket. -/

theorem maxBySec_mem (d : DateTime) (ds : List DateTime) : maxBySec d ds ∈ d :: ds := by
  induction ds generalizing d with
  | nil => simp [maxBySec]
  | cons x xs ih =>
    simp only [maxBySec]
    by_cases h : toSeconds d < toSeconds x
    · rw [if_pos h]
      rcases List.mem_cons.1 (ih x) with h1 | h1
      · simp [h1]
      · exact List.mem_cons_of_mem _ (List.mem_cons_of_mem _ h1)
    · rw [if_neg h]
      rcases List.mem_cons.1 (ih d) with h1 | h1
      · simp [h1]
      · exact List.mem_cons_of_mem _ (List.mem_cons_of_mem _ h1)

theorem minBySec_mem (d : DateTime) (ds : List DateTime) : minBySec d ds ∈ d :: ds := by
  induction ds generalizing d with
  | nil => simp [minBySec]
  | cons x xs ih =>
    simp only [minBySec]
    by_cases h : toSeconds x < toSeconds d
    · rw [if_pos h]
      rcases List.mem_cons.1 (ih x) with h1 | h1
      · simp [h1]
      · exact List.mem_cons_of_mem _ (List.mem_cons_of_mem _ h1)
    · rw [if_neg h]
      rcases List.mem_cons.1 (ih d) with h1 | h1
      · simp [h1]
      · exact List.mem_cons_of_mem _ (List.mem_cons_of_mem _ h1)

theorem self_le_maxBySec (d : DateTime) (ds : List DateTime) :
    toSeconds d ≤ toSeconds (maxBySec d ds) := by
  induction ds generalizing d with
  | nil => exact le_refl _
  | cons x xs ih =>
    simp only [maxBySec]
    by_cases h : toSeconds d < toSeconds x
    · rw [if_pos h]
      exact le_trans h.le (ih x)
    · rw [if_neg h]
      exact ih d

theorem minBySec_le_self (d : DateTime) (ds : List DateTime) :
    toSeconds (minBySec d ds) ≤ toSeconds d := by
  induction ds generalizing d with
  | nil => exact le_refl _
  | cons x xs ih =>
    simp only [minBySec]
    by_cases h : toSeconds x < toSeconds d
    · rw [if_pos h]
      exact le_trans (ih x) h.le
    · rw [if_neg h]
      exact ih d

theorem le_maxBySec (d : DateTime) (ds : List DateTime) :
    ∀ x ∈ d :: ds, toSeconds x ≤ toSeconds (maxBySec d ds) := by
  induction ds generalizing d with
  | nil =>
    intro x hx
    rcases List.mem_cons.1 hx with rfl | h
    · exact le_refl _
    · cases h
  | cons y ys ih =>
    intro x hx
    simp only [maxBySec]
    by_cases h : toSeconds d < toSeconds y
    · rw [if_pos h]
      rcases List.mem_cons.1 hx with rfl | h1
      · exact le_trans h.le (self_le_maxBySec y ys)
      · exact ih y x h1
    · rw [if_neg h]
      rcases List.mem_cons.1 hx with rfl | h1
      · exact self_le_maxBySec x ys
      · rcases List.mem_cons.1 h1 with rfl | h2
        · exact le_trans (not_lt.1 h) (self_le_maxBySec d ys)
        · exact ih d x (List.mem_cons_of_mem d h2)

theorem minBySec_le (d : DateTime) (ds : List DateTime) :
    ∀ x ∈ d :: ds, toSeconds (minBySec d ds) ≤ toSeconds x := by
  induction ds generalizing d with
  | nil =>
    intro x hx
    rcases List.mem_cons.1 hx with rfl | h
    · exact le_refl _
    · cases h
  | cons y ys ih =>
    intro x hx
    simp only [minBySec]
    by_cases h : toSeconds y < toSeconds d
    · rw [if_pos h]
      rcases List.mem_cons.1 hx with rfl | h1
      · exact le_trans (minBySec_le_self y ys) h.le
      · exact ih y x h1
    · rw [if_neg h]
      rcases List.mem_cons.1 hx with rfl | h1
      · exact minBySec_le_self x ys
      · rcases List.mem_cons.1 h1 with rfl | h2
        · exact le_trans (minBySec_le_self d ys) (not_lt.1 h)
        · exact ih d x (List.mem_cons_of_mem d h2)

theorem minBySec_le_maxBySec (d : DateTime) (ds : List DateTime) :
    toSeconds (minBySec d ds) ≤ toSeconds (maxBySec d ds) :=
  minBySec_le d ds _ (maxBySec_mem d ds)

/-- A nonnegative difference below one day floors to zero days. -/
theorem fdiv_day_eq_zero {a : ℤ} (h1 : 0 ≤ a) (h2 : a < 86400) : a.fdiv 86400 = 0 := by
  rw [Int.fdiv_eq_ediv]
  · exact Int.ediv_eq_zero_of_lt h1 h2
  · decide

/-! Facts about the date parsers. -/

theorem dval_le_nine {c : Char} (h : isDig c = true) : dval c ≤ 9 := by
  simp only [isDig, Bool.and_eq_true, decide_eq_true_eq] at h
  simp only [dval]
  omega

theorem parse12_bounds {minv maxv : Nat} {s rest : Str} {v : Nat}
    (h : parse12 minv maxv s = some (v, rest)) :
    minv ≤ v ∧ (v ≤ maxv ∨ v ≤ 9) := by
  cases s with
  | nil => simp [parse12] at h
  | cons c1 t =>
    cases t with
    | nil =>
      simp only [parse12] at h
      by_cases h1 : isDig c1 = true ∧ minv ≤ dval c1
      · rw [if_pos h1] at h
        have h2 := Option.some.inj h
        have hv : dval c1 = v := congrArg Prod.fst h2
        subst hv
        exact ⟨h1.2, Or.inr (dval_le_nine h1.1)⟩
      · rw [if_neg h1] at h
        cases h
    | cons c2 t2 =>
      simp only [parse12] at h
      by_cases h1 : isDig c1 = true
      · rw [if_pos h1] at h
        by_cases h2 : isDig c2 = true
        · rw [if_pos h2] at h
          by_cases h3 : minv ≤ dval c1 * 10 + dval c2 ∧ dval c1 * 10 + dval c2 ≤ maxv
          · rw [if_pos h3] at h
            have h4 := Option.some.inj h
            have hv : dval c1 * 10 + dval c2 = v := congrArg Prod.fst h4
            subst hv
            exact ⟨h3.1, Or.inl h3.2⟩
          · rw [if_neg h3] at h
            cases h
        · rw [if_neg h2] at h
          by_cases h3 : minv ≤ dval c1
          · rw [if_pos h3] at h
            have h4 := Option.some.inj h
            have hv : dval c1 = v := congrArg Prod.fst h4
            subst hv
            exact ⟨h3, Or.inr (dval_le_nine h1)⟩
          · rw [if_neg h3] at h
            cases h
      · rw [if_neg h1] at h
        cases h

theorem strptimeDate_time_zero {s : Str} {x : DateTime} (h : strptimeDate s = some x) :
    x.hour = 0 ∧ x.minute = 0 ∧ x.second = 0 := by
  unfold strptimeDate at h
  cases hp1 : parse4 s with
  | none =>
    simp only [hp1] at h
    cases h
  | some p1 =>
    obtain ⟨y, s1⟩ := p1
    simp only [hp1] at h
    cases hp2 : parseCh '-' s1 with
    | none => simp only [hp2] at h; cases h
    | some s2 =>
      simp only [hp2] at h
      cases hp3 : parse12 1 12 s2 with
      | none => simp only [hp3] at h; cases h
      | some p3 =>
        obtain ⟨mo, s3⟩ := p3
        simp only [hp3] at h
        cases hp4 : parseCh '-' s3 with
        | none => simp only [hp4] at h; cases h
        | some s4 =>
          simp only [hp4] at h
          cases hp5 : parse12 1 31 s4 with
          | none => simp only [hp5] at h; cases h
          | some p5 =>
            obtain ⟨da, s5⟩ := p5
            simp only [hp5] at h
            by_cases hc : s5 = [] ∧ 1 ≤ y ∧ da ≤ daysInMonth y mo
            · rw [if_pos hc] at h
              have hx := Option.some.inj h
              subst hx
              exact ⟨rfl, rfl, rfl⟩
            · rw [if_neg hc] at h
              cases h

theorem genParseDate_time_zero {d : Str} {x : DateTime} (h : genParseDate d = some x) :
    x.hour = 0 ∧ x.minute = 0 ∧ x.second = 0 := by
  unfold genParseDate at h
  cases hft : firstToken d with
  | none => simp only [hft] at h; cases h
  | some t =>
    simp only [hft] at h
    exact strptimeDate_time_zero h

theorem strptimeFull_bounds {s : Str} {x : DateTime} (h : strptimeFull s = some x) :
    x.hour ≤ 23 ∧ x.minute ≤ 59 ∧ x.second ≤ 59 := by
  unfold strptimeFull at h
  cases hp1 : parse4 s with
  | none => simp only [hp1] at h; cases h
  | some p1 =>
    obtain ⟨y, s1⟩ := p1
    simp only [hp1] at h
    cases hp2 : parseCh '-' s1 with
    | none => simp only [hp2] at h; cases h
    | some s2 =>
      simp only [hp2] at h
      cases hp3 : parse12 1 12 s2 with
      | none => simp only [hp3] at h; cases h
      | some p3 =>
        obtain ⟨mo, s3⟩ := p3
        simp only [hp3] at h
        cases hp4 : parseCh '-' s3 with
        | none => simp only [hp4] at h; cases h
        | some s4 =>
          simp only [hp4] at h
          cases hp5 : parse12 1 31 s4 with
          | none => simp only [hp5] at h; cases h
          | some p5 =>
            obtain ⟨da, s5⟩ := p5
            simp only [hp5] at h
            cases hp6 : parseWs s5 with
            | none => simp only [hp6] at h; cases h
            | some s6 =>
              simp only [hp6] at h
              cases hp7 : parse12 0 23 s6 with
              | none => simp only [hp7] at h; cases h
              | some p7 =>
                obtain ⟨hh, s7⟩ := p7
                simp only [hp7] at h
                cases hp8 : parseCh ':' s7 with
                | none => simp only [hp8] at h; cases h
                | some s8 =>
                  simp only [hp8] at h
                  cases hp9 : parse12 0 59 s8 with
                  | none => simp only [hp9] at h; cases h
                  | some p9 =>
                    obtain ⟨mi, s9⟩ := p9
                    simp only [hp9] at h
                    cases hp10 : parseCh ':' s9 with
                    | none => simp only [hp10] at h; cases h
                    | some s10 =>
                      simp only [hp10] at h
                      cases hp11 : parse12 0 59 s10 with
                      | none => simp only [hp11] at h; cases h
                      | some p11 =>
                        obtain ⟨sec, s11⟩ := p11
                        simp only [hp11] at h
                        by_cases hc : s11 = [] ∧ 1 ≤ y ∧ da ≤ daysInMonth y mo
                        · rw [if_pos hc] at h
                          have hx := Option.some.inj h
                          subst hx
                          have b1 := parse12_bounds hp7
                          have b2 := parse12_bounds hp9
                          have b3 := parse12_bounds hp11
                          refine ⟨?_, ?_, ?_⟩ <;> simp only [] <;> omega
                        · rw [if_neg hc] at h
                          cases h

/-! Projection lemmas describing the effect of one row on each grouping map. -/

theorem genProcessRow_cat (s : GState) (row : Row) :
    (genProcessRow s row).cat =
      (if pyBool (row.category.getD (lit "NULL")) ∧ row.category.getD (lit "NULL") ≠ lit "NULL"
       then catFold (row.data_pubblicazione.getD []) s.cat
              (splitComma (row.category.getD (lit "NULL")))
       else s.cat) := by
  simp only [genProcessRow, catFold]
  split_ifs <;> rfl

theorem genProcessRow_geo (s : GState) (row : Row) :
    (genProcessRow s row).geo =
      (if pyBool (row.geo.getD (lit "NULL")) ∧ row.geo.getD (lit "NULL") ≠ lit "NULL"
       then updG s.geo (row.geo.getD (lit "NULL")) (row.data_pubblicazione.getD [])
       else s.geo) := by
  simp only [genProcessRow]
  split_ifs <;> rfl

theorem genProcessRow_temp (s : GState) (row : Row) :
    (genProcessRow s row).temp =
      (if pyBool (row.template_articolo.getD (lit "NULL")) ∧
            row.template_articolo.getD (lit "NULL") ≠ lit "NULL"
       then updG s.temp (genCleanTemplate (row.template_articolo.getD (lit "NULL")))
              (row.data_pubblicazione.getD [])
       else s.temp) := by
  simp only [genProcessRow]
  split_ifs <;> rfl

theorem anaProcessRow_noDateKey (s : AState) (row : Row)
    (hd : row.data_pubblicazione = none) :
    anaProcessRow s row = Except.error (lit "KeyError") := by
  simp only [anaProcessRow, hd, getKey]

theorem anaProcessRow_badDate (s : AState) (row : Row) (d : Str)
    (hd : row.data_pubblicazione = some d) (hp : strptimeFull d = none) :
    anaProcessRow s row = Except.ok s := by
  simp only [anaProcessRow, hd, getKey, hp]

theorem anaProcessRow_noCatKey (s : AState) (row : Row) (d : Str) (dt : DateTime)
    (hd : row.data_pubblicazione = some d) (hp : strptimeFull d = some dt)
    (hc : row.category = none) :
    anaProcessRow s row = Except.error (lit "KeyError") := by
  simp only [anaProcessRow, hd, getKey, hp, hc]

theorem anaProcessRow_ok (s : AState) (row : Row) (d : Str) (dt : DateTime)
    (c g t : Str) (hd : row.data_pubblicazione = some d) (hp : strptimeFull d = some dt)
    (hc : row.category = some c) (hg : row.geo = some g)
    (ht : row.template_articolo = some t) :
    anaProcessRow s row = Except.ok
      (let s1 := if pyBool c ∧ c ≠ lit "NULL" then { s with cats := updA s.cats c dt } else s
       let s2 :=
         if pyBool g ∧ g ≠ lit "NULL" then { s1 with geos := updA s1.geos g dt } else s1
       if pyBool t ∧ t ≠ lit "NULL" then
         { s2 with temps := updA s2.temps (anaCleanTemplate t) dt }
       else s2) := by
  simp only [anaProcessRow, hd, getKey, hp, hc, hg, ht]

theorem anaProcessRow_noGeoKey (s : AState) (row : Row) (d : Str) (dt : DateTime) (c : Str)
    (hd : row.data_pubblicazione = some d) (hp : strptimeFull d = some dt)
    (hc : row.category = some c) (hg : row.geo = none) :
    anaProcessRow s row = Except.error (lit "KeyError") := by
  simp only [anaProcessRow, hd, getKey, hp, hc, hg]

theorem anaProcessRow_noTempKey (s : AState) (row : Row) (d : Str) (dt : DateTime)
    (c g : Str) (hd : row.data_pubblicazione = some d) (hp : strptimeFull d = some dt)
    (hc : row.category = some c) (hg : row.geo = some g)
    (ht : row.template_articolo = none) :
    anaProcessRow s row = Except.error (lit "KeyError") := by
  simp only [anaProcessRow, hd, getKey, hp, hc, hg, ht]

/-! Aggregation invariants. -/

theorem invG_updG {m : GStats} (h : InvG m) (k ds : Str) : InvG (updG m k ds) := by
  intro q b hq
  by_cases hk : q = k
  · subst hk
    rw [alookup_updG_self] at hq
    have hb := Option.some.inj hq
    subst hb
    have hbase : (datesG m q).length ≤ countG m q := by
      cases hl : alookup m q with
      | none => simp [datesG, countG, hl]
      | some b0 =>
        have hq0 := h q b0 hl
        simpa [datesG, countG, hl] using hq0
    by_cases hds : ds = [] <;> simp [hds] <;> omega
  · rw [alookup_updG_ne m k ds q hk] at hq
    exact h q b hq

theorem invG_catFold (ds : Str) (toks : List Str) {m : GStats} (h : InvG m) :
    InvG (catFold ds m toks) := by
  induction toks generalizing m with
  | nil => exact h
  | cons t ts ih =>
    show InvG (catFold ds (if pyBool (pyStrip t) then updG m (pyStrip t) ds else m) ts)
    apply ih
    by_cases hc : pyBool (pyStrip t)
    · rw [if_pos hc]
      exact invG_updG h _ ds
    · rw [if_neg hc]
      exact h

theorem invG_genProcessRow {s : GState} (row : Row) (h1 : InvG s.cat) (h2 : InvG s.geo)
    (h3 : InvG s.temp) :
    InvG (genProcessRow s row).cat ∧ InvG (genProcessRow s row).geo ∧
      InvG (genProcessRow s row).temp := by
  refine ⟨?_, ?_, ?_⟩
  · rw [genProcessRow_cat]
    split_ifs
    · exact invG_catFold _ _ h1
    · exact h1
  · rw [genProcessRow_geo]
    split_ifs
    · exact invG_updG h2 _ _
    · exact h2
  · rw [genProcessRow_temp]
    split_ifs
    · exact invG_updG h3 _ _
    · exact h3

theorem invG_genRun_go (rows : List Row) :
    ∀ s : GState, InvG s.cat → InvG s.geo → InvG s.temp →
      InvG (rows.foldl genProcessRow s).cat ∧ InvG (rows.foldl genProcessRow s).geo ∧
        InvG (rows.foldl genProcessRow s).temp := by
  induction rows with
  | nil =>
    intro s h1 h2 h3
    exact ⟨h1, h2, h3⟩
  | cons r rs ih =>
    intro s h1 h2 h3
    have hstep := invG_genProcessRow r h1 h2 h3
    simp only [List.foldl_cons]
    exact ih (genProcessRow s r) hstep.1 hstep.2.1 hstep.2.2

theorem invG_genRun (rows : List Row) :
    InvG (genRun rows).cat ∧ InvG (genRun rows).geo ∧ InvG (genRun rows).temp := by
  have hnil : InvG ([] : GStats) := by
    intro k b hb
    simp [alookup] at hb
  exact invG_genRun_go rows ⟨[], [], []⟩ hnil hnil hnil

theorem invA_updA {m : AStats} (h : InvA m) (k : Str) {d : DateTime} (hd : TimeOk d) :
    InvA (updA m k d) := by
  intro q b hq
  by_cases hk : q = k
  · subst hk
    rw [alookup_updA_self] at hq
    have hb := Option.some.inj hq
    subst hb
    have hbase : countA m q = (datesA m q).length ∧ ∀ x ∈ datesA m q, TimeOk x := by
      cases hl : alookup m q with
      | none => simp [datesA, countA, hl]
      | some b0 =>
        have hq0 := h q b0 hl
        refine ⟨?_, ?_⟩
        · simpa [datesA, countA, hl] using hq0.1
        · simpa [datesA, hl] using hq0.2.2
    refine ⟨?_, ?_, ?_⟩
    · show countA m q + 1 = (datesA m q ++ [d]).length
      rw [List.length_append, hbase.1]
      rfl
    · show 1 ≤ countA m q + 1
      omega
    · show ∀ x ∈ datesA m q ++ [d], TimeOk x
      intro x hx
      rcases List.mem_append.1 hx with hx1 | hx1
      · exact hbase.2 x hx1
      · rcases List.mem_singleton.1 hx1 with rfl
        exact hd
  · rw [alookup_updA_ne m k d q hk] at hq
    exact h q b hq

theorem invA_anaProcessRow {s s' : AState} {row : Row}
    (hok : anaProcessRow s row = Except.ok s')
    (h1 : InvA s.cats) (h2 : InvA s.geos) (h3 : InvA s.temps) :
    InvA s'.cats ∧ InvA s'.geos ∧ InvA s'.temps := by
  cases hd : row.data_pubblicazione with
  | none =>
    rw [anaProcessRow_noDateKey s row hd] at hok
    cases hok
  | some d =>
    cases hp : strptimeFull d with
    | none =>
      rw [anaProcessRow_badDate s row d hd hp] at hok
      have hs := Except.ok.inj hok
      subst hs
      exact ⟨h1, h2, h3⟩
    | some dt =>
      cases hc : row.category with
      | none =>
        rw [anaProcessRow_noCatKey s row d dt hd hp hc] at hok
        cases hok
      | some c =>
        cases hg : row.geo with
        | none =>
          rw [anaProcessRow_noGeoKey s row d dt c hd hp hc hg] at hok
          cases hok
        | some g =>
          cases ht : row.template_articolo with
          | none =>
            rw [anaProcessRow_noTempKey s row d dt c g hd hp hc hg ht] at hok
            cases hok
          | some t =>
            rw [anaProcessRow_ok s row d dt c g t hd hp hc hg ht] at hok
            have hs := Except.ok.inj hok
            subst hs
            have hb := strptimeFull_bounds hp
            refine ⟨?_, ?_, ?_⟩ <;>
              split_ifs <;>
                first
                  | exact invA_updA h1 _ hb
                  | exact invA_updA h2 _ hb
                  | exact invA_updA h3 _ hb
                  | exact h1
                  | exact h2
                  | exact h3

theorem invA_anaRun_go (rows : List Row) :
    ∀ s s' : AState, rows.foldlM anaProcessRow s = Except.ok s' →
      InvA s.cats → InvA s.geos → InvA s.temps →
      InvA s'.cats ∧ InvA s'.geos ∧ InvA s'.temps := by
  induction rows with
  | nil =>
    intro s s' h h1 h2 h3
    simp only [List.foldlM_nil] at h
    have hs := Except.ok.inj h
    subst hs
    exact ⟨h1, h2, h3⟩
  | cons r rs ih =>
    intro s s' h h1 h2 h3
    rw [List.foldlM_cons] at h
    cases hstep : anaProcessRow s r with
    | error e =>
      rw [hstep] at h
      have himp : (Except.error e : Except Str AState) = Except.ok s' := h
      cases himp
    | ok s1 =>
      rw [hstep] at h
      have hrest : rs.foldlM anaProcessRow s1 = Except.ok s' := h
      have hi := invA_anaProcessRow hstep h1 h2 h3
      exact ih s1 s' hrest hi.1 hi.2.1 hi.2.2

theorem invA_anaRun (rows : List Row) (s' : AState) (h : anaRun rows = Except.ok s') :
    InvA s'.cats ∧ InvA s'.geos ∧ InvA s'.temps := by
  have hnil : InvA ([] : AStats) := by
    intro k b hb
    simp [alookup] at hb
  exact invA_anaRun_go rows ⟨[], [], []⟩ s' h hnil hnil hnil

/-! String helpers for the template-cleaning statements. -/

theorem startsWith_append (p r : Str) : startsWith (p ++ r) p = true := by
  induction p with
  | nil => cases r <;> rfl
  | cons c cs ih => simp [startsWith, ih]

theorem endsWith_append (s p : Str) : endsWith (s ++ p) p = true := by
  unfold endsWith
  rw [List.reverse_append]
  exact startsWith_append p.reverse s.reverse

/-- Full characterisation of the JSON template cleaning on a string that has
both the fixed leading part and the fixed trailing part. -/
theorem genCleanTemplate_strip (s : Str) :
    genCleanTemplate (lit "templates/post-" ++ s ++ lit ".php") = s := by
  unfold genCleanTemplate
  have h1 : startsWith (lit "templates/post-" ++ s ++ lit ".php") (lit "templates/post-")
      = true := by
    have := startsWith_append (lit "templates/post-") (s ++ lit ".php")
    simpa [List.append_assoc] using this
  rw [if_pos h1]
  have h2 : List.drop 15 (lit "templates/post-" ++ s ++ lit ".php") = s ++ lit ".php" := by
    have h3 : (lit "templates/post-").length = 15 := by decide
    calc List.drop 15 (lit "templates/post-" ++ s ++ lit ".php")
        = List.drop (lit "templates/post-").length
            (lit "templates/post-" ++ (s ++ lit ".php")) := by
          rw [h3, List.append_assoc]
      _ = s ++ lit ".php" := List.drop_left _ _
  rw [h2, if_pos (endsWith_append s (lit ".php"))]
  have h4 : (s ++ lit ".php").length - 4 = s.length := by
    have h5 : (lit ".php").length = 4 := by decide
    rw [List.length_append, h5]
    omega
  rw [h4]
  exact List.take_left s (lit ".php")

theorem fmtDate_length (d : DateTime) : 10 ≤ (fmtDate d).length := by
  simp only [fmtDate, pad0, List.length_append, List.length_cons, List.length_replicate]
  omega

theorem fmtDate_ne_na (d : DateTime) : fmtDate d ≠ lit "N/A" := by
  intro h
  have h1 := fmtDate_length d
  rw [h] at h1
  simp [lit] at h1

/-! Counting tokens through the category fold of the JSON entry point. -/

theorem countG_catFold (ds : Str) (toks : List Str) (m : GStats) (k : Str) :
    countG (catFold ds m toks) k =
      countG m k + (toks.filter (fun t => pyBool (pyStrip t) && (pyStrip t == k))).length := by
  induction toks generalizing m with
  | nil => simp [catFold]
  | cons t ts ih =>
    show countG (catFold ds (if pyBool (pyStrip t) then updG m (pyStrip t) ds else m) ts) k = _
    by_cases hb : pyBool (pyStrip t)
    · rw [if_pos hb, ih]
      by_cases hk : pyStrip t = k
      · have hb2 : pyBool k = true := by
          rw [← hk]
          exact hb
        rw [hk, countG_updG_self]
        simp [List.filter_cons, hb, hb2, hk]
        omega
      · rw [countG_updG_ne _ _ _ _ (fun h => hk h.symm)]
        have hk2 : (pyStrip t == k) = false := by
          simpa using hk
        simp [List.filter_cons, hb, hk2]
    · rw [if_neg hb, ih]
      have hb2 : pyBool (pyStrip t) = false := by
        simpa using hb
      simp [List.filter_cons, hb2]

/-! Projections of a successful table row step. -/

theorem anaProcessRow_ok_state (s : AState) (row : Row) (d : Str) (dt : DateTime)
    (c g t : Str) (hd : row.data_pubblicazione = some d) (hp : strptimeFull d = some dt)
    (hc : row.category = some c) (hg : row.geo = some g)
    (ht : row.template_articolo = some t) :
    anaProcessRow s row = Except.ok
      ⟨if pyBool c ∧ c ≠ lit "NULL" then updA s.cats c dt else s.cats,
       if pyBool g ∧ g ≠ lit "NULL" then updA s.geos g dt else s.geos,
       if pyBool t ∧ t ≠ lit "NULL" then updA s.temps (anaCleanTemplate t) dt else s.temps⟩ := by
  rw [anaProcessRow_ok s row d dt c g t hd hp hc hg ht]
  congr 1
  split_ifs <;> rfl

theorem toSeconds_range {x : DateTime} (h : TimeOk x) :
    toOrdinal x * 86400 ≤ toSeconds x ∧ toSeconds x ≤ toOrdinal x * 86400 + 86399 := by
  obtain ⟨h1, h2, h3⟩ := h
  unfold toSeconds
  omega

/-! The claims. -/

/-- Claim C7: in JSON mode the emitted totalArticles always equals the raw
number of data rows read from the file, whatever the rows contain, while
the sum of per-bucket counts of a grouping can differ from it (a single
row with no template yields totalArticles 1 and template count sum 0). -/
theorem c7_totalArticles :
    (∀ rows : List Row, (genOutput rows).totalArticles = rows.length) ∧
    sumCounts (genOutput [⟨none, none, none, none⟩]).templates ≠
      (genOutput [⟨none, none, none, none⟩]).totalArticles := by
  constructor
  · intro rows
    rfl
  · decide

/-- Claim C8 as stated is false: processing a row whose mapping lacks the
category key raises KeyError in the table entry point (the date parses, so
the loop reaches the category lookup). -/
theorem c8_counterexample :
    anaRun [⟨some (lit "2024-01-01 00:00:00"), none, some (lit "x"), some (lit "y")⟩] =
      Except.error (lit "KeyError") := by
  rfl

/-- Claim C8 amended: the JSON entry point tolerates a missing key (a
missing date behaves as the empty string, a missing grouping field as the
sentinel) and never fails, but the table entry point raises KeyError on a
missing data_pubblicazione key, and, once the date parses, on a missing
category, geo or template_articolo key when the loop reaches it. -/
theorem c8_missing_keys :
    (∀ (s : GState) (row : Row),
      genProcessRow s { row with data_pubblicazione := none } =
        genProcessRow s { row with data_pubblicazione := some [] } ∧
      genProcessRow s { row with category := none } =
        genProcessRow s { row with category := some (lit "NULL") } ∧
      genProcessRow s { row with geo := none } =
        genProcessRow s { row with geo := some (lit "NULL") } ∧
      genProcessRow s { row with template_articolo := none } =
        genProcessRow s { row with template_articolo := some (lit "NULL") }) ∧
    (∀ (s : AState) (row : Row),
      row.data_pubblicazione = none →
      anaProcessRow s row = Except.error (lit "KeyError")) ∧
    (∀ (s : AState) (row : Row) (d : Str) (dt : DateTime),
      row.data_pubblicazione = some d → strptimeFull d = some dt →
      row.category = none →
      anaProcessRow s row = Except.error (lit "KeyError")) ∧
    (∀ (s : AState) (row : Row) (d : Str) (dt : DateTime) (c : Str),
      row.data_pubblicazione = some d → strptimeFull d = some dt →
      row.category = some c → row.geo = none →
      anaProcessRow s row = Except.error (lit "KeyError")) ∧
    (∀ (s : AState) (row : Row) (d : Str) (dt : DateTime) (c g : Str),
      row.data_pubblicazione = some d → strptimeFull d = some dt →
      row.category = some c → row.geo = some g → row.template_articolo = none →
      anaProcessRow s row = Except.error (lit "KeyError")) := by
  refine ⟨?_, ?_, ?_, ?_, ?_⟩
  · intro s row
    exact ⟨rfl, rfl, rfl, rfl⟩
  · intro s row hd
    exact anaProcessRow_noDateKey s row hd
  · intro s row d dt hd hp hc
    exact anaProcessRow_noCatKey s row d dt hd hp hc
  · intro s row d dt c hd hp hc hg
    exact anaProcessRow_noGeoKey s row d dt c hd hp hc hg
  · intro s row d dt c g hd hp hc hg ht
    exact anaProcessRow_noTempKey s row d dt c g hd hp hc hg ht

/-- Witness for the amended claim C8 at concrete rows, one per missing key
of the table entry point. -/
theorem c8_missing_keys_witness :
    anaProcessRow (⟨[], [], []⟩ : AState)
        ⟨none, some (lit "x"), some (lit "x"), some (lit "x")⟩ =
      Except.error (lit "KeyError") ∧
    anaProcessRow (⟨[], [], []⟩ : AState)
        ⟨some (lit "2024-01-01 00:00:00"), none, some (lit "x"), some (lit "x")⟩ =
      Except.error (lit "KeyError") ∧
    anaProcessRow (⟨[], [], []⟩ : AState)
        ⟨some (lit "2024-01-01 00:00:00"), some (lit "x"), none, some (lit "x")⟩ =
      Except.error (lit "KeyError") ∧
    anaProcessRow (⟨[], [], []⟩ : AState)
        ⟨some (lit "2024-01-01 00:00:00"), some (lit "x"), some (lit "x"), none⟩ =
      Except.error (lit "KeyError") :=
  ⟨c8_missing_keys.2.1 ⟨[], [], []⟩ _ rfl,
   c8_missing_keys.2.2.1 ⟨[], [], []⟩ _ _ ⟨2024, 1, 1, 0, 0, 0⟩ rfl (by decide) rfl,
   c8_missing_keys.2.2.2.1 ⟨[], [], []⟩ _ _ ⟨2024, 1, 1, 0, 0, 0⟩ (lit "x") rfl (by decide)
     rfl rfl,
   c8_missing_keys.2.2.2.2 ⟨[], [], []⟩ _ _ ⟨2024, 1, 1, 0, 0, 0⟩ (lit "x") (lit "x") rfl
     (by decide) rfl rfl rfl⟩

/-- Claim C9: the two entry points do not accept the same date strings: the
bare date 2024-01-01 fails the table format, and the whole row is dropped
from every bucket there, while the JSON entry point token-parses it and
still counts the row and keeps its date for the calculations. -/
theorem c9_date_format_mismatch :
    strptimeFull (lit "2024-01-01") = none ∧
    genParseDate (lit "2024-01-01") = some ⟨2024, 1, 1, 0, 0, 0⟩ ∧
    (∀ (s : AState) (row : Row),
      row.data_pubblicazione = some (lit "2024-01-01") →
      anaProcessRow s row = Except.ok s) ∧
    (∀ (s : GState) (row : Row) (g : Str),
      row.data_pubblicazione = some (lit "2024-01-01") →
      row.geo = some g → pyBool g = true → g ≠ lit "NULL" →
      countG (genProcessRow s row).geo g = countG s.geo g + 1 ∧
      datesG (genProcessRow s row).geo g = datesG s.geo g ++ [lit "2024-01-01"]) := by
  refine ⟨by decide, by decide, ?_, ?_⟩
  · intro s row hd
    exact anaProcessRow_badDate s row _ hd (by decide)
  · intro s row g hd hg hb hnn
    have hgeo : (genProcessRow s row).geo = updG s.geo g (lit "2024-01-01") := by
      rw [genProcessRow_geo, hg, hd]
      simp only [Option.getD_some]
      rw [if_pos ⟨hb, hnn⟩]
    rw [hgeo]
    constructor
    · exact countG_updG_self s.geo g _
    · rw [datesG_updG_self]
      rw [if_neg (by decide : ¬(lit "2024-01-01" = ([] : Str)))]

/-- Witness for claim C9 at concrete inputs. -/
theorem c9_date_format_mismatch_witness :
    anaProcessRow (⟨[], [], []⟩ : AState)
        ⟨some (lit "2024-01-01"), some (lit "x"), some (lit "x"), some (lit "x")⟩ =
      Except.ok ⟨[], [], []⟩ ∧
    countG (genProcessRow (⟨[], [], []⟩ : GState)
        ⟨some (lit "2024-01-01"), none, some (lit "x"), none⟩).geo (lit "x") = 1 := by
  constructor
  · exact c9_date_format_mismatch.2.2.1 ⟨[], [], []⟩ _ rfl
  · have h := c9_date_format_mismatch.2.2.2 ⟨[], [], []⟩
      ⟨some (lit "2024-01-01"), none, some (lit "x"), none⟩ (lit "x") rfl rfl
      (by decide) (by decide)
    rw [h.1]
    rfl

/-- Claim C10: every bucket the table entry point builds has a count of at
least one that equals the length of its date list, so its printed row has a
real last-entry date and never the placeholder. -/
theorem c10_table_bucket_invariant :
    ∀ (rows : List Row) (s' : AState),
      anaRun rows = Except.ok s' →
      ∀ (k : Str) (b : ABucket),
        (alookup s'.cats k = some b ∨ alookup s'.geos k = some b ∨
          alookup s'.temps k = some b) →
        b.count = b.dates.length ∧ 1 ≤ b.count ∧ lastEntryCell b.dates ≠ lit "N/A" := by
  intro rows s' hok k b hmem
  have hi := invA_anaRun rows s' hok
  have hb : b.count = b.dates.length ∧ 1 ≤ b.count ∧ ∀ x ∈ b.dates, TimeOk x := by
    rcases hmem with h | h | h
    · exact hi.1 k b h
    · exact hi.2.1 k b h
    · exact hi.2.2 k b h
  refine ⟨hb.1, hb.2.1, ?_⟩
  cases hd : b.dates with
  | nil =>
    exfalso
    have h1 := hb.1
    have h2 := hb.2.1
    rw [hd] at h1
    simp at h1
    omega
  | cons d ds =>
    show lastEntryCell (d :: ds) ≠ lit "N/A"
    simp only [lastEntryCell]
    exact fmtDate_ne_na _

/-- Witness for claim C10 on a one-row table run. -/
theorem c10_table_bucket_invariant_witness :
    (1 : Nat) = ([⟨2024, 1, 2, 3, 4, 5⟩] : List DateTime).length ∧ 1 ≤ 1 ∧
      lastEntryCell [⟨2024, 1, 2, 3, 4, 5⟩] ≠ lit "N/A" :=
  c10_table_bucket_invariant
    [⟨some (lit "2024-01-02 03:04:05"), some (lit "x"), some (lit "NULL"),
      some (lit "NULL")⟩]
    ⟨[(lit "x", ⟨1, [⟨2024, 1, 2, 3, 4, 5⟩]⟩)], [], []⟩ rfl (lit "x")
    ⟨1, [⟨2024, 1, 2, 3, 4, 5⟩]⟩ (Or.inl rfl)

/-- Claim C1 as stated is false: the table entry point does not split the
category field, so a row with category "a, b" increments only the single
bucket keyed by the unsplit string, and no bucket "a" or "b" exists. -/
theorem c1_counterexample :
    anaRun [⟨some (lit "2024-01-01 00:00:00"), some (lit "a, b"), some (lit "NULL"),
        some (lit "NULL")⟩] =
      Except.ok ⟨[(lit "a, b", ⟨1, [⟨2024, 1, 1, 0, 0, 0⟩]⟩)], [], []⟩ ∧
    countA [(lit "a, b", (⟨1, [⟨2024, 1, 1, 0, 0, 0⟩]⟩ : ABucket))] (lit "a") = 0 ∧
    countA [(lit "a, b", (⟨1, [⟨2024, 1, 1, 0, 0, 0⟩]⟩ : ABucket))] (lit "b") = 0 ∧
    countA [(lit "a, b", (⟨1, [⟨2024, 1, 1, 0, 0, 0⟩]⟩ : ABucket))] (lit "a, b") = 1 := by
  exact ⟨rfl, by decide, by decide, by decide⟩

/-- Claim C1 amended: only the JSON entry point splits the category field on
commas and buckets each trimmed non-empty token, so a row with category
"a, b" increments buckets "a" and "b" by exactly one each there and leaves
bucket "a, b" unchanged; the table entry point performs no splitting and
increments exactly the bucket keyed by the raw string "a, b". -/
theorem c1_category_split :
    (∀ (s : GState) (row : Row),
      row.category = some (lit "a, b") →
      countG (genProcessRow s row).cat (lit "a") = countG s.cat (lit "a") + 1 ∧
      countG (genProcessRow s row).cat (lit "b") = countG s.cat (lit "b") + 1 ∧
      countG (genProcessRow s row).cat (lit "a, b") = countG s.cat (lit "a, b")) ∧
    (∀ (s : AState) (row : Row) (d : Str) (dt : DateTime) (g t : Str),
      row.data_pubblicazione = some d → strptimeFull d = some dt →
      row.category = some (lit "a, b") → row.geo = some g →
      row.template_articolo = some t →
      ∀ s', anaProcessRow s row = Except.ok s' →
        countA s'.cats (lit "a, b") = countA s.cats (lit "a, b") + 1 ∧
        countA s'.cats (lit "a") = countA s.cats (lit "a") ∧
        countA s'.cats (lit "b") = countA s.cats (lit "b")) := by
  constructor
  · intro s row hc
    have h1 := genProcessRow_cat s row
    rw [hc] at h1
    simp only [Option.getD_some] at h1
    rw [if_pos (⟨by decide, by decide⟩ :
      pyBool (lit "a, b") = true ∧ lit "a, b" ≠ lit "NULL")] at h1
    refine ⟨?_, ?_, ?_⟩
    · rw [h1, countG_catFold]
      have h2 : ((splitComma (lit "a, b")).filter
          (fun tok => pyBool (pyStrip tok) && (pyStrip tok == lit "a"))).length = 1 := by
        decide
      rw [h2]
    · rw [h1, countG_catFold]
      have h2 : ((splitComma (lit "a, b")).filter
          (fun tok => pyBool (pyStrip tok) && (pyStrip tok == lit "b"))).length = 1 := by
        decide
      rw [h2]
    · rw [h1, countG_catFold]
      have h2 : ((splitComma (lit "a, b")).filter
          (fun tok => pyBool (pyStrip tok) && (pyStrip tok == lit "a, b"))).length = 0 := by
        decide
      rw [h2]
      omega
  · intro s row d dt g t hd hp hc hg ht s' hok
    rw [anaProcessRow_ok_state s row d dt (lit "a, b") g t hd hp hc hg ht] at hok
    have hs := Except.ok.inj hok
    subst hs
    simp only []
    rw [if_pos (⟨by decide, by decide⟩ :
      pyBool (lit "a, b") = true ∧ lit "a, b" ≠ lit "NULL")]
    refine ⟨?_, ?_, ?_⟩
    · exact countA_updA_self s.cats (lit "a, b") dt
    · exact countA_updA_ne s.cats (lit "a, b") dt (lit "a") (by decide)
    · exact countA_updA_ne s.cats (lit "a, b") dt (lit "b") (by decide)

/-- Witness for the amended claim C1 at concrete inputs. -/
theorem c1_category_split_witness :
    (countG (genProcessRow (⟨[], [], []⟩ : GState)
        ⟨some (lit "2024-01-01"), some (lit "a, b"), none, none⟩).cat (lit "a") =
      countG ([] : GStats) (lit "a") + 1) ∧
    countA (⟨[(lit "a, b", (⟨1, [⟨2024, 1, 1, 0, 0, 0⟩]⟩ : ABucket))], [], []⟩ : AState).cats
        (lit "a, b") =
      countA (⟨[], [], []⟩ : AState).cats (lit "a, b") + 1 := by
  constructor
  · exact (c1_category_split.1 ⟨[], [], []⟩
      ⟨some (lit "2024-01-01"), some (lit "a, b"), none, none⟩ rfl).1
  · exact ((c1_category_split.2 ⟨[], [], []⟩
      ⟨some (lit "2024-01-01 00:00:00"), some (lit "a, b"), some (lit "NULL"),
        some (lit "NULL")⟩
      (lit "2024-01-01 00:00:00") ⟨2024, 1, 1, 0, 0, 0⟩ (lit "NULL") (lit "NULL")
      rfl (by decide) rfl rfl rfl
      ⟨[(lit "a, b", ⟨1, [⟨2024, 1, 1, 0, 0, 0⟩]⟩)], [], []⟩ (by rfl)).1)

/-- Claim C5 as stated is false: the table entry point removes every
occurrence of the two fixed substrings, not only at the ends, so template
"news.php.php" buckets under "news" instead of "news.php". -/
theorem c5_counterexample :
    anaRun [⟨some (lit "2024-01-01 00:00:00"), some (lit "NULL"), some (lit "NULL"),
        some (lit "news.php.php")⟩] =
      Except.ok ⟨[], [], [(lit "news", ⟨1, [⟨2024, 1, 1, 0, 0, 0⟩]⟩)]⟩ ∧
    lit "news" ≠ lit "news.php" := by
  exact ⟨rfl, by decide⟩

/-- Claim C5 amended: the JSON entry point strips the fixed leading
"templates/post-" and trailing ".php" once each and only at those
positions, leaving other strings untouched, while the table entry point
removes every occurrence of the two substrings anywhere in the name; both
normalize "templates/post-news.php" to "news". -/
theorem c5_template_cleaning :
    (∀ s : Str, genCleanTemplate (lit "templates/post-" ++ s ++ lit ".php") = s) ∧
    (∀ t : Str, startsWith t (lit "templates/post-") = false →
      endsWith t (lit ".php") = false → genCleanTemplate t = t) ∧
    genCleanTemplate (lit "news.php.php") = lit "news.php" ∧
    anaCleanTemplate (lit "news.php.php") = lit "news" ∧
    anaCleanTemplate (lit "a.phpb.php") = lit "ab" ∧
    genCleanTemplate (lit "templates/post-news.php") = lit "news" ∧
    anaCleanTemplate (lit "templates/post-news.php") = lit "news" := by
  refine ⟨genCleanTemplate_strip, ?_, by decide, by decide, by decide, by decide, by decide⟩
  intro t h1 h2
  unfold genCleanTemplate
  rw [if_neg (by simp [h1, h2]), if_neg (by simp [h1, h2])]

/-- Witness for the amended claim C5 on a neutral template name. -/
theorem c5_template_cleaning_witness :
    genCleanTemplate (lit "plain") = lit "plain" :=
  c5_template_cleaning.2.1 (lit "plain") (by decide) (by decide)

/-- Claim C6: a grouping field that is empty or the sentinel "NULL"
contributes to no bucket of that grouping in either entry point, while the
other grouping maps of the same row are computed exactly as they would be
for any other category value. -/
theorem c6_null_empty_fields :
    (∀ (s : GState) (row : Row),
      (row.category = some (lit "NULL") ∨ row.category = some []) →
      (genProcessRow s row).cat = s.cat) ∧
    (∀ (s : GState) (row : Row),
      (row.geo = some (lit "NULL") ∨ row.geo = some []) →
      (genProcessRow s row).geo = s.geo) ∧
    (∀ (s : GState) (row : Row),
      (row.template_articolo = some (lit "NULL") ∨ row.template_articolo = some []) →
      (genProcessRow s row).temp = s.temp) ∧
    (∀ (s : GState) (row : Row) (c1 c2 : Option Str),
      (genProcessRow s { row with category := c1 }).geo =
        (genProcessRow s { row with category := c2 }).geo ∧
      (genProcessRow s { row with category := c1 }).temp =
        (genProcessRow s { row with category := c2 }).temp) ∧
    (∀ (s : AState) (row : Row) (d : Str) (dt : DateTime) (c g t : Str),
      row.data_pubblicazione = some d → strptimeFull d = some dt →
      row.category = some c → row.geo = some g → row.template_articolo = some t →
      ∀ s', anaProcessRow s row = Except.ok s' →
        ((c = lit "NULL" ∨ c = []) → s'.cats = s.cats) ∧
        ((g = lit "NULL" ∨ g = []) → s'.geos = s.geos) ∧
        ((t = lit "NULL" ∨ t = []) → s'.temps = s.temps)) ∧
    (∀ (s : AState) (row : Row) (d : Str) (dt : DateTime) (c1 c2 g t : Str),
      row.data_pubblicazione = some d → strptimeFull d = some dt →
      row.geo = some g → row.template_articolo = some t →
      (anaProcessRow s { row with category := some c1 }).map AState.geos =
        (anaProcessRow s { row with category := some c2 }).map AState.geos ∧
      (anaProcessRow s { row with category := some c1 }).map AState.temps =
        (anaProcessRow s { row with category := some c2 }).map AState.temps) := by
  refine ⟨?_, ?_, ?_, ?_, ?_, ?_⟩
  · intro s row hc
    rw [genProcessRow_cat]
    rcases hc with hc | hc <;> rw [hc] <;>
      simp only [Option.getD_some] <;> rw [if_neg (by decide)]
  · intro s row hg
    rw [genProcessRow_geo]
    rcases hg with hg | hg <;> rw [hg] <;>
      simp only [Option.getD_some] <;> rw [if_neg (by decide)]
  · intro s row ht
    rw [genProcessRow_temp]
    rcases ht with ht | ht <;> rw [ht] <;>
      simp only [Option.getD_some] <;> rw [if_neg (by decide)]
  · intro s row c1 c2
    constructor
    · rw [genProcessRow_geo, genProcessRow_geo]
    · rw [genProcessRow_temp, genProcessRow_temp]
  · intro s row d dt c g t hd hp hc hg ht s' hok
    rw [anaProcessRow_ok_state s row d dt c g t hd hp hc hg ht] at hok
    have hs := Except.ok.inj hok
    subst hs
    refine ⟨?_, ?_, ?_⟩ <;> intro hv <;>
      · show (if _ then _ else _) = _
        rw [if_neg]
        rcases hv with hv | hv <;> rw [hv] <;> intro hcond <;>
          first
            | exact hcond.2 rfl
            | exact absurd hcond.1 (by decide)
  · intro s row d dt c1 c2 g t hd hp hg ht
    rw [anaProcessRow_ok_state s { row with category := some c1 } d dt c1 g t hd hp rfl hg ht,
      anaProcessRow_ok_state s { row with category := some c2 } d dt c2 g t hd hp rfl hg ht]
    exact ⟨rfl, rfl⟩

/-- Witness for claim C6 at concrete inputs. -/
theorem c6_null_empty_fields_witness :
    (genProcessRow (⟨[], [], []⟩ : GState)
        ⟨some (lit "2024-01-01"), some (lit "NULL"), some (lit "x"), none⟩).cat = [] ∧
    countA (⟨[], [(lit "x", (⟨1, [⟨2024, 1, 1, 0, 0, 0⟩]⟩ : ABucket))], []⟩ : AState).cats
        (lit "q") = countA (⟨[], [], []⟩ : AState).cats (lit "q") := by
  constructor
  · exact c6_null_empty_fields.1 ⟨[], [], []⟩
      ⟨some (lit "2024-01-01"), some (lit "NULL"), some (lit "x"), none⟩ (Or.inl rfl)
  · have h := (c6_null_empty_fields.2.2.2.2.1 ⟨[], [], []⟩
      ⟨some (lit "2024-01-01 00:00:00"), some (lit "NULL"), some (lit "x"),
        some (lit "NULL")⟩
      (lit "2024-01-01 00:00:00") ⟨2024, 1, 1, 0, 0, 0⟩ (lit "NULL") (lit "x") (lit "NULL")
      rfl (by decide) rfl rfl rfl
      ⟨[], [(lit "x", ⟨1, [⟨2024, 1, 1, 0, 0, 0⟩]⟩)], []⟩ (by rfl)).1 (Or.inl rfl)
    rw [h]

/-- Claim C3: for a bucket with at least two parseable dates all on the
same calendar day, the JSON entry point reports frequency "N/A" while the
table entry point reports "< 1 day". -/
theorem c3_zero_span :
    (∀ (k : Str) (b : GBucket) (p : DateTime) (ps : List DateTime),
      b.dates.filterMap genParseDate = p :: ps → ps ≠ [] →
      (∀ x ∈ p :: ps, toOrdinal x = toOrdinal p) →
      (calcEntry k b).frequency = lit "N/A") ∧
    (∀ (rows : List Row) (s' : AState) (k : Str) (b : ABucket)
       (d : DateTime) (ds : List DateTime),
      anaRun rows = Except.ok s' →
      (alookup s'.cats k = some b ∨ alookup s'.geos k = some b ∨
        alookup s'.temps k = some b) →
      b.dates = d :: ds → ds ≠ [] →
      (∀ x ∈ d :: ds, toOrdinal x = toOrdinal d) →
      calculate_frequency b.dates = lit "< 1 day") := by
  constructor
  · intro k b p ps hfm hps hord
    have hzero : ∀ x ∈ p :: ps, toSeconds x = toOrdinal p * 86400 := by
      intro x hx
      have hx2 : x ∈ b.dates.filterMap genParseDate := by
        rw [hfm]
        exact hx
      rcases List.mem_filterMap.1 hx2 with ⟨a, _, ha⟩
      have ht := genParseDate_time_zero ha
      have ho := hord x hx
      unfold toSeconds
      rw [ht.1, ht.2.1, ht.2.2, ho]
      omega
    have hmax : toSeconds (maxBySec p ps) = toOrdinal p * 86400 :=
      hzero _ (maxBySec_mem p ps)
    have hmin : toSeconds (minBySec p ps) = toOrdinal p * 86400 :=
      hzero _ (minBySec_mem p ps)
    have htd : tdDays (maxBySec p ps) (minBySec p ps) = 0 := by
      unfold tdDays
      rw [hmax, hmin]
      simp
    have hlen : 1 < (p :: ps).length := by
      cases ps with
      | nil => exact absurd rfl hps
      | cons a l =>
        simp only [List.length_cons]
        omega
    simp only [calcEntry, hfm]
    rw [if_pos hlen, if_neg]
    intro hcond
    rw [htd] at hcond
    exact lt_irrefl 0 hcond.1
  · intro rows s' k b d ds hok hmem hbd hds hord
    have hi := invA_anaRun rows s' hok
    have hbb : b.count = b.dates.length ∧ 1 ≤ b.count ∧ ∀ x ∈ b.dates, TimeOk x := by
      rcases hmem with h | h | h
      · exact hi.1 k b h
      · exact hi.2.1 k b h
      · exact hi.2.2 k b h
    have htime : ∀ x ∈ d :: ds, TimeOk x := by
      intro x hx
      refine hbb.2.2 x ?_
      rw [hbd]
      exact hx
    have hrange : ∀ x ∈ d :: ds, toOrdinal d * 86400 ≤ toSeconds x ∧
        toSeconds x ≤ toOrdinal d * 86400 + 86399 := by
      intro x hx
      have h1 := toSeconds_range (htime x hx)
      rw [hord x hx] at h1
      exact h1
    have h1 := hrange _ (maxBySec_mem d ds)
    have h2 := hrange _ (minBySec_mem d ds)
    have hle := minBySec_le d ds _ (maxBySec_mem d ds)
    have htd : tdDays (maxBySec d ds) (minBySec d ds) = 0 := by
      unfold tdDays
      apply fdiv_day_eq_zero
      · omega
      · omega
    have hlen : ¬ (d :: ds).length < 2 := by
      cases ds with
      | nil => exact absurd rfl hds
      | cons a l =>
        simp only [List.length_cons]
        omega
    rw [hbd]
    simp only [calculate_frequency]
    rw [if_neg hlen, if_pos htd]

/-- Witness for claim C3: two dates of the same day in each entry point. -/
theorem c3_zero_span_witness :
    (calcEntry (lit "x") ⟨2, [lit "2024-01-01", lit "2024-01-01"]⟩).frequency = lit "N/A" ∧
    calculate_frequency [⟨2024, 1, 1, 1, 0, 0⟩, ⟨2024, 1, 1, 23, 0, 0⟩] = lit "< 1 day" := by
  constructor
  · exact c3_zero_span.1 (lit "x") ⟨2, [lit "2024-01-01", lit "2024-01-01"]⟩
      ⟨2024, 1, 1, 0, 0, 0⟩ [⟨2024, 1, 1, 0, 0, 0⟩] (by decide) (by decide) (by decide)
  · exact c3_zero_span.2
      [⟨some (lit "2024-01-01 01:00:00"), some (lit "x"), some (lit "NULL"),
        some (lit "NULL")⟩,
       ⟨some (lit "2024-01-01 23:00:00"), some (lit "x"), some (lit "NULL"),
        some (lit "NULL")⟩]
      ⟨[(lit "x", ⟨2, [⟨2024, 1, 1, 1, 0, 0⟩, ⟨2024, 1, 1, 23, 0, 0⟩]⟩)], [], []⟩
      (lit "x") ⟨2, [⟨2024, 1, 1, 1, 0, 0⟩, ⟨2024, 1, 1, 23, 0, 0⟩]⟩
      ⟨2024, 1, 1, 1, 0, 0⟩ [⟨2024, 1, 1, 23, 0, 0⟩]
      (by rfl) (Or.inl rfl) rfl (by decide) (by decide)

/-- Claim C2: for a bucket with at least two parseable dates spanning a
positive number of whole days, both entry points render the frequency as
the span divided by count minus one, with one decimal place, in the shape
of a "1 every X.X days" phrase. -/
theorem c2_frequency_formula :
    (∀ (rows : List Row) (k : Str) (b : GBucket) (p : DateTime) (ps : List DateTime),
      (alookup (genRun rows).cat k = some b ∨ alookup (genRun rows).geo k = some b ∨
        alookup (genRun rows).temp k = some b) →
      b.dates.filterMap genParseDate = p :: ps → ps ≠ [] →
      0 < tdDays (maxBySec p ps) (minBySec p ps) →
      (calcEntry k b).frequency =
        lit "1 every " ++ fmtAvg (tdDays (maxBySec p ps) (minBySec p ps))
          ((b.count : ℤ) - 1) ++ lit " days") ∧
    (∀ (rows : List Row) (s' : AState) (k : Str) (b : ABucket)
       (d : DateTime) (ds : List DateTime),
      anaRun rows = Except.ok s' →
      (alookup s'.cats k = some b ∨ alookup s'.geos k = some b ∨
        alookup s'.temps k = some b) →
      b.dates = d :: ds → ds ≠ [] →
      0 < tdDays (maxBySec d ds) (minBySec d ds) →
      frequencyCell b.dates =
        lit "1 every " ++ (fmtAvg (tdDays (maxBySec d ds) (minBySec d ds))
          ((b.count : ℤ) - 1) ++ lit " days")) := by
  constructor
  · intro rows k b p ps hmem hfm hps hspan
    have hinv := invG_genRun rows
    have hcnt : b.dates.length ≤ b.count := by
      rcases hmem with h | h | h
      · exact hinv.1 k b h
      · exact hinv.2.1 k b h
      · exact hinv.2.2 k b h
    have hlen : 1 < (p :: ps).length := by
      cases ps with
      | nil => exact absurd rfl hps
      | cons a l =>
        simp only [List.length_cons]
        omega
    have hparsed_le : (p :: ps).length ≤ b.dates.length := by
      rw [← hfm]
      exact List.length_filterMap_le _ _
    have hbcount : 1 < b.count := by
      simp only [List.length_cons] at hlen hparsed_le
      omega
    simp only [calcEntry, hfm]
    rw [if_pos hlen, if_pos ⟨hspan, hbcount⟩]
  · intro rows s' k b d ds hok hmem hbd hds hspan
    have hi := invA_anaRun rows s' hok
    have hbb : b.count = b.dates.length ∧ 1 ≤ b.count ∧ ∀ x ∈ b.dates, TimeOk x := by
      rcases hmem with h | h | h
      · exact hi.1 k b h
      · exact hi.2.1 k b h
      · exact hi.2.2 k b h
    have hlen : ¬ (d :: ds).length < 2 := by
      cases ds with
      | nil => exact absurd rfl hds
      | cons a l =>
        simp only [List.length_cons]
        omega
    have hnz : ¬ tdDays (maxBySec d ds) (minBySec d ds) = 0 := by omega
    unfold frequencyCell
    rw [hbd]
    simp only [calculate_frequency]
    rw [if_neg hlen, if_neg hnz]
    have hc : (b.count : ℤ) = ((d :: ds).length : ℤ) := by
      rw [hbb.1, hbd]
    rw [hc]

/-- Witness for claim C2: the ten-day two-date bucket of the spec in each
entry point. -/
theorem c2_frequency_formula_witness :
    (calcEntry (lit "x") ⟨2, [lit "2024-01-01", lit "2024-01-11"]⟩).frequency =
      lit "1 every 10.0 days" ∧
    frequencyCell [⟨2024, 1, 1, 0, 0, 0⟩, ⟨2024, 1, 11, 0, 0, 0⟩] =
      lit "1 every 10.0 days" := by
  constructor
  · have h := c2_frequency_formula.1
      [⟨some (lit "2024-01-01"), some (lit "x"), none, none⟩,
       ⟨some (lit "2024-01-11"), some (lit "x"), none, none⟩]
      (lit "x") ⟨2, [lit "2024-01-01", lit "2024-01-11"]⟩
      ⟨2024, 1, 1, 0, 0, 0⟩ [⟨2024, 1, 11, 0, 0, 0⟩]
      (Or.inl rfl) (by decide) (by decide) (by decide)
    exact h.trans (by decide)
  · have h := c2_frequency_formula.2
      [⟨some (lit "2024-01-01 00:00:00"), some (lit "x"), some (lit "NULL"),
        some (lit "NULL")⟩,
       ⟨some (lit "2024-01-11 00:00:00"), some (lit "x"), some (lit "NULL"),
        some (lit "NULL")⟩]
      ⟨[(lit "x", ⟨2, [⟨2024, 1, 1, 0, 0, 0⟩, ⟨2024, 1, 11, 0, 0, 0⟩]⟩)], [], []⟩
      (lit "x") ⟨2, [⟨2024, 1, 1, 0, 0, 0⟩, ⟨2024, 1, 11, 0, 0, 0⟩]⟩
      ⟨2024, 1, 1, 0, 0, 0⟩ [⟨2024, 1, 11, 0, 0, 0⟩]
      (by rfl) (Or.inl rfl) rfl (by decide) (by decide)
    exact h.trans (by decide)

/-- Claim C4: a row whose date string fails to parse is skipped entirely by
the table entry point, contributing to no bucket, while the JSON entry
point still increments every applicable bucket count and only keeps the
unparseable string out of the parsed dates the calculations use. -/
theorem c4_unparseable_date :
    (∀ (s : AState) (row : Row) (d : Str),
      row.data_pubblicazione = some d → strptimeFull d = none →
      anaProcessRow s row = Except.ok s) ∧
    (∀ (s : GState) (row : Row) (g : Str),
      row.geo = some g → pyBool g = true → g ≠ lit "NULL" →
      genParseDate (row.data_pubblicazione.getD []) = none →
      countG (genProcessRow s row).geo g = countG s.geo g + 1 ∧
      (datesG (genProcessRow s row).geo g).filterMap genParseDate =
        (datesG s.geo g).filterMap genParseDate) ∧
    (∀ (s : GState) (row : Row) (t : Str),
      row.template_articolo = some t → pyBool t = true → t ≠ lit "NULL" →
      genParseDate (row.data_pubblicazione.getD []) = none →
      countG (genProcessRow s row).temp (genCleanTemplate t) =
        countG s.temp (genCleanTemplate t) + 1 ∧
      (datesG (genProcessRow s row).temp (genCleanTemplate t)).filterMap genParseDate =
        (datesG s.temp (genCleanTemplate t)).filterMap genParseDate) ∧
    (∀ (s : GState) (row : Row) (c k : Str),
      row.category = some c → pyBool c = true → c ≠ lit "NULL" →
      countG (genProcessRow s row).cat k = countG s.cat k +
        ((splitComma c).filter
          (fun tok => pyBool (pyStrip tok) && (pyStrip tok == k))).length) := by
  refine ⟨?_, ?_, ?_, ?_⟩
  · intro s row d hd hp
    exact anaProcessRow_badDate s row d hd hp
  · intro s row g hg hb hnn hdp
    have hgeo : (genProcessRow s row).geo =
        updG s.geo g (row.data_pubblicazione.getD []) := by
      rw [genProcessRow_geo, hg]
      simp only [Option.getD_some]
      rw [if_pos ⟨hb, hnn⟩]
    rw [hgeo]
    refine ⟨countG_updG_self s.geo g _, ?_⟩
    rw [datesG_updG_self]
    by_cases hds : row.data_pubblicazione.getD [] = []
    · rw [if_pos hds]
      simp
    · rw [if_neg hds]
      rw [List.filterMap_append]
      simp [List.filterMap_cons, hdp]
  · intro s row t ht hb hnn hdp
    have htemp : (genProcessRow s row).temp =
        updG s.temp (genCleanTemplate t) (row.data_pubblicazione.getD []) := by
      rw [genProcessRow_temp, ht]
      simp only [Option.getD_some]
      rw [if_pos ⟨hb, hnn⟩]
    rw [htemp]
    refine ⟨countG_updG_self s.temp _ _, ?_⟩
    rw [datesG_updG_self]
    by_cases hds : row.data_pubblicazione.getD [] = []
    · rw [if_pos hds]
      simp
    · rw [if_neg hds]
      rw [List.filterMap_append]
      simp [List.filterMap_cons, hdp]
  · intro s row c k hc hb hnn
    have hcat := genProcessRow_cat s row
    rw [hc] at hcat
    simp only [Option.getD_some] at hcat
    rw [if_pos ⟨hb, hnn⟩] at hcat
    rw [hcat, countG_catFold]

/-- Witness for claim C4 at a concrete unparseable date. -/
theorem c4_unparseable_date_witness :
    anaProcessRow (⟨[], [], []⟩ : AState)
        ⟨some (lit "nodate"), some (lit "x"), some (lit "x"), some (lit "x")⟩ =
      Except.ok ⟨[], [], []⟩ ∧
    countG (genProcessRow (⟨[], [], []⟩ : GState)
        ⟨some (lit "nodate"), none, some (lit "x"), none⟩).geo (lit "x") = 1 := by
  constructor
  · exact c4_unparseable_date.1 ⟨[], [], []⟩ _ (lit "nodate") rfl (by decide)
  · have h := (c4_unparseable_date.2.1 ⟨[], [], []⟩
      ⟨some (lit "nodate"), none, some (lit "x"), none⟩ (lit "x") rfl (by decide)
      (by decide) (by decide)).1
    rw [h]
    rfl

end DashGC
